import Mathlib

/-!
Verification of the atomCAD feature-history engine, molecular graph, spatial
index and relaxation engine, as a shallow embedding of the Rust sources
(`crates/scene/src/molecule.rs`, `crates/molecule/src/molecule.rs`,
`crates/molecule/src/dynamics.rs`).

Modelling conventions:
* `f32` scalars are modelled as `ℚ` in the graph / bounding-box / history
  engine (all operations there are field operations and comparisons, exact on
  `ℚ`), and as `ℝ` in the relaxation engine (which needs square roots).
* Rust `HashMap` is modelled as an association list (`AMap`) with
  replace-on-insert semantics; no code under verification depends on hash
  iteration order (the only whole-map traversals are `keys().max()` and
  rebuild loops keyed by the graph).
* `petgraph::stable_graph::StableUnGraph` is modelled as lists of optional
  node/edge slots: removal blanks a slot and never renumbers other indices,
  which is the stability guarantee the sources rely on.  (petgraph may reuse
  vacant slots on later insertion; no claim depends on slot reuse.)
* Fallible Rust methods (`Result<(), E>` on `&mut self`) become functions
  returning the updated state paired with `Option E` (`none` = `Ok(())`),
  so that mutation-before-error is represented faithfully.
-/

/-- A 3-component vector, modelling `ultraviolet::Vec3` (source: f32 components). -/
structure Vec3 (α : Type) where
  x : α
  y : α
  z : α
deriving DecidableEq, Repr

instance [Add α] : Add (Vec3 α) where
  add a b := ⟨a.x + b.x, a.y + b.y, a.z + b.z⟩

instance [Sub α] : Sub (Vec3 α) where
  sub a b := ⟨a.x - b.x, a.y - b.y, a.z - b.z⟩

instance [Neg α] : Neg (Vec3 α) where
  neg a := ⟨-a.x, -a.y, -a.z⟩

instance [Mul α] : SMul α (Vec3 α) where
  smul c a := ⟨c * a.x, c * a.y, c * a.z⟩

/-- The zero vector. -/
def Vec3.zero [Zero α] : Vec3 α := ⟨0, 0, 0⟩

/-- `Vec3::mag_sq`: squared magnitude. -/
def Vec3.magSq [Mul α] [Add α] (v : Vec3 α) : α :=
  v.x * v.x + v.y * v.y + v.z * v.z

/-- Association-list model of `std::collections::HashMap`. -/
abbrev AMap (K V : Type) := List (K × V)

/-- `HashMap::get`: first-match lookup. -/
def AMap.get? [DecidableEq K] : AMap K V → K → Option V
  | [], _ => none
  | (k', v) :: rest, k => if k' = k then some v else AMap.get? rest k

/-- `HashMap::insert`: replace the binding if the key is present, else append. -/
def AMap.insert [DecidableEq K] : AMap K V → K → V → AMap K V
  | [], k, v => [(k, v)]
  | (k', v') :: rest, k, v =>
      if k' = k then (k, v) :: rest else (k', v') :: AMap.insert rest k v

/-- `HashMap::remove` (the dropped-binding part; presence is checked via `get?`). -/
def AMap.erase [DecidableEq K] (m : AMap K V) (k : K) : AMap K V :=
  m.filter (fun p => p.1 ≠ k)

/-- `HashMap::keys`. -/
def AMap.keys (m : AMap K V) : List K := m.map Prod.fst

/-- `HashMap::contains_key`. -/
def AMap.contains [DecidableEq K] (m : AMap K V) (k : K) : Bool :=
  (m.get? k).isSome

/-- Model of `petgraph::stable_graph::StableUnGraph`: node and edge slots are
addressed by position; removal blanks a slot (`none`) so that all other
indices stay valid. -/
structure StableGraph (N E : Type) where
  nodes : List (Option N)
  edges : List (Option (Nat × Nat × E))
deriving DecidableEq, Repr

/-- The empty graph (`Default` / `clear`). -/
def StableGraph.empty : StableGraph N E := ⟨[], []⟩

/-- `StableGraph::add_node`: appends a fresh slot and returns its index. -/
def StableGraph.addNode (g : StableGraph N E) (n : N) : StableGraph N E × Nat :=
  ({ g with nodes := g.nodes ++ [some n] }, g.nodes.length)

/-- `StableGraph::node_weight`. -/
def StableGraph.nodeWeight (g : StableGraph N E) (i : Nat) : Option N :=
  (g.nodes.get? i).bind id

/-- `StableGraph::remove_node`: blanks the slot and drops all incident edges. -/
def StableGraph.removeNode (g : StableGraph N E) (i : Nat) : StableGraph N E :=
  { nodes := g.nodes.set i none,
    edges := g.edges.map (fun e =>
      match e with
      | some (a, b, w) => if a = i ∨ b = i then none else some (a, b, w)
      | none => none) }

/-- `StableGraph::add_edge` (the returned edge index is unused by the sources). -/
def StableGraph.addEdge (g : StableGraph N E) (a b : Nat) (w : E) : StableGraph N E :=
  { g with edges := g.edges ++ [some (a, b, w)] }

/-- `StableGraph::contains_edge` on an undirected graph. -/
def StableGraph.containsEdge (g : StableGraph N E) (a b : Nat) : Bool :=
  g.edges.any (fun e =>
    match e with
    | some (u, v, _) => (u = a ∧ v = b) ∨ (u = b ∧ v = a)
    | none => false)

/-- `node_weights()`: live node weights in index order. -/
def StableGraph.nodeWeights (g : StableGraph N E) : List N :=
  g.nodes.filterMap id

/-- `node_references()`: (index, weight) pairs of live nodes in index order. -/
def StableGraph.nodeReferences (g : StableGraph N E) : List (Nat × N) :=
  g.nodes.enum.filterMap (fun p =>
    match p.2 with
    | some n => some (p.1, n)
    | none => none)

/-- `node_count()`. -/
def StableGraph.nodeCount (g : StableGraph N E) : Nat :=
  g.nodeWeights.length

/-- `edge_count()` (live edges). -/
def StableGraph.edgeCount (g : StableGraph N E) : Nat :=
  (g.edges.filterMap id).length

/-- Modelled from the spec: the missing `periodic_table` crate.  Per §2 it is a
read-only lookup from an element identifier to its physical radius; the
concrete radius values are data not present under src/, so representative
positive rationals are used (Hydrogen's radius fixes the ray-march step size). -/
inductive Element
  | Hydrogen
  | Carbon
  | Nitrogen
  | Oxygen
  | Sulfur
  | Iodine
deriving DecidableEq, Repr

/-- Modelled from the spec: `PERIODIC_TABLE.element_reprs[e].radius`. -/
def Element.radius : Element → ℚ
  | .Hydrogen => 1
  | .Carbon => 17 / 10
  | .Nitrogen => 3 / 2
  | .Oxygen => 3 / 2
  | .Sulfur => 9 / 5
  | .Iodine => 2

/-- Modelled from the spec: the missing `common::ids::AtomSpecifier`, "an opaque,
stable, externally-assigned identifier for an atom" (§3).  The demo code in
`scene/src/molecule.rs` builds it from a single counter (`AtomSpecifier::new(0)`,
`new(1)`, ... matching feature ids), so it is modelled as a wrapped `Nat`. -/
structure AtomSpecifier where
  id : Nat
deriving DecidableEq, Repr

/-- `ReferenceType` from the error enums (only the atom variant is exercised). -/
inductive ReferenceType
  | atom
deriving DecidableEq, Repr

/-- `EditError` (crate `molecule`) and the structurally identical `FeatureError`
(crate `scene`): duplicate-specifier insert, or an unknown-atom reference. -/
inductive EditError
  | atomOverwrite
  | brokenReference (t : ReferenceType)
deriving DecidableEq, Repr

/-- `AtomNode`: element, owning specifier, and optional `head` back-reference
(identical in both crates). -/
structure AtomNode where
  element : Element
  spec : AtomSpecifier
  head : Option AtomSpecifier
deriving DecidableEq, Repr

/-- `MoleculeGraph = StableUnGraph<AtomNode, BondOrder>`; `BondOrder = u8` is
modelled as `Nat` (the sources never do arithmetic on bond orders). -/
abbrev MoleculeGraph := StableGraph AtomNode Nat

/-- `AtomPositions` over exact rationals (history engine / spatial index side). -/
abbrev AtomPositions := AMap AtomSpecifier (Vec3 ℚ)

/-- Modelled from the spec: the missing `common::BoundingBox` (the file
`src/utils.rs` under src/ holds an older app-crate copy without
`enclose_sphere` / `ray_hit_times` / `Default`).  Per §4.4 it is an
axis-aligned box "updated by `enclose_sphere(center, radius)` unioning in each
new atom's extent"; `Default` is the empty volume. -/
inductive BoundingBox
  | empty
  | box (lo hi : Vec3 ℚ)
deriving DecidableEq, Repr

/-- Modelled from the spec: `BoundingBox::enclose_sphere(center, radius)`. -/
def BoundingBox.encloseSphere : BoundingBox → Vec3 ℚ → ℚ → BoundingBox
  | .empty, c, r => .box ⟨c.x - r, c.y - r, c.z - r⟩ ⟨c.x + r, c.y + r, c.z + r⟩
  | .box lo hi, c, r =>
      .box ⟨min lo.x (c.x - r), min lo.y (c.y - r), min lo.z (c.z - r)⟩
        ⟨max hi.x (c.x + r), max hi.y (c.y + r), max hi.z (c.z + r)⟩

/-- One axis of the slab intersection for `ray_hit_times`: `none` means the ray
misses the slab outright, `some none` means the axis is unconstrained
(direction component zero, origin inside the slab), `some (some (t1, t2))`
is the entry/exit time interval on this axis. -/
def BoundingBox.slabAxis (lo hi o d : ℚ) : Option (Option (ℚ × ℚ)) :=
  if d = 0 then
    if lo ≤ o ∧ o ≤ hi then some none else none
  else
    some (some (min ((lo - o) / d) ((hi - o) / d), max ((lo - o) / d) ((hi - o) / d)))

/-- Modelled from the spec: `BoundingBox::ray_hit_times(origin, direction)` —
"first intersects the ray with the bounding box (`None` if no intersection)"
(§4.4).  Standard slab method; returns the (possibly negative) parameter
interval where the line meets the box (the caller rejects boxes entirely
behind the ray via `tmax <= 0`). -/
def BoundingBox.rayHitTimes : BoundingBox → Vec3 ℚ → Vec3 ℚ → Option (ℚ × ℚ)
  | .empty, _, _ => none
  | .box lo hi, o, d =>
    match BoundingBox.slabAxis lo.x hi.x o.x d.x,
        BoundingBox.slabAxis lo.y hi.y o.y d.y,
        BoundingBox.slabAxis lo.z hi.z o.z d.z with
    | some ix, some iy, some iz =>
      match ([ix, iy, iz].filterMap id) with
      | [] => none
      | iv :: rest =>
        let tmin := rest.foldl (fun a p => max a p.1) iv.1
        let tmax := rest.foldl (fun a p => min a p.2) iv.2
        if tmin ≤ tmax then some (tmin, tmax) else none
    | _, _, _ => none

namespace Mol

/-- `molecule::Molecule` (crate `molecule`): concrete graph representation with
specifier map, cached positions and bounding volume.  The GPU buffer handle
(`gpu_atoms`) is out of scope (spec §1) and omitted; the `gpu_synced` flag is
kept. -/
structure Molecule where
  atom_map : AMap AtomSpecifier Nat
  graph : MoleculeGraph
  bounding_box : BoundingBox
  gpu_synced : Bool
  positions : AtomPositions
deriving DecidableEq

/-- `Molecule::default()`. -/
def Molecule.default : Molecule :=
  { atom_map := [], graph := StableGraph.empty, bounding_box := .empty,
    gpu_synced := false, positions := [] }

/-- `EditContext::add_atom` for `molecule::Molecule` (lines 250-277). -/
def Molecule.add_atom (m : Molecule) (element : Element) (pos : Vec3 ℚ)
    (spec : AtomSpecifier) (head : Option AtomSpecifier) :
    Molecule × Option EditError :=
  if m.atom_map.contains spec then
    (m, some .atomOverwrite)
  else
    let (g, index) := m.graph.addNode ⟨element, spec, head⟩
    ({ m with
        graph := g,
        atom_map := m.atom_map.insert spec index,
        bounding_box := m.bounding_box.encloseSphere pos element.radius,
        gpu_synced := false,
        positions := m.positions.insert spec pos }, none)

/-- `EditContext::create_bond` for `molecule::Molecule` (lines 299-312). -/
def Molecule.create_bond (m : Molecule) (a1 a2 : AtomSpecifier) (order : Nat) :
    Molecule × Option EditError :=
  match m.atom_map.get? a1, m.atom_map.get? a2 with
  | some i1, some i2 => ({ m with graph := m.graph.addEdge i1 i2 order }, none)
  | _, _ => (m, some (.brokenReference .atom))

/-- `EditContext::add_bonded_atom` for `molecule::Molecule` (lines 238-248):
adds the atom (with `head = bond_target`), then tries to create the bond —
the `?` after `add_atom` only propagates the *first* error, so a
`create_bond` failure leaves the freshly inserted atom in place. -/
def Molecule.add_bonded_atom (m : Molecule) (element : Element) (pos : Vec3 ℚ)
    (spec : AtomSpecifier) (bond_target : AtomSpecifier) (bond_order : Nat) :
    Molecule × Option EditError :=
  match m.add_atom element pos spec (some bond_target) with
  | (m1, some e) => (m1, some e)
  | (m1, none) => m1.create_bond spec bond_target bond_order

/-- `Molecule::recompute_bounding_box` (lines 166-173).  Note that the source
encloses every live atom into the *existing* `self.bounding_box` without
resetting it first. -/
def Molecule.recompute_bounding_box (m : Molecule) : Molecule :=
  { m with
    bounding_box := m.graph.nodeWeights.foldl
      (fun bb atom =>
        bb.encloseSphere ((m.positions.get? atom.spec).getD Vec3.zero) atom.element.radius)
      m.bounding_box }

/-- `EditContext::remove_atom` for `molecule::Molecule` (lines 279-297),
keeping the source's control flow: the node is removed from the graph before
the `atom_map` / `positions` removals are checked. -/
def Molecule.remove_atom (m : Molecule) (target : AtomSpecifier) :
    Molecule × Option EditError :=
  match m.atom_map.get? target with
  | none => (m, some (.brokenReference .atom))
  | some index =>
    let m1 := { m with graph := m.graph.removeNode index }
    match m1.atom_map.get? target with
    | none => (m1, some (.brokenReference .atom))
    | some _ =>
      let m2 := { m1 with atom_map := m1.atom_map.erase target }
      match m2.positions.get? target with
      | none => (m2, some (.brokenReference .atom))
      | some _ =>
        let m3 := { m2 with positions := m2.positions.erase target }
        (({ m3 with gpu_synced := false }).recompute_bounding_box, none)

/-- `EditContext::find_atom` (lines 314-319). -/
def Molecule.find_atom (m : Molecule) (spec : AtomSpecifier) : Option AtomNode :=
  match m.atom_map.get? spec with
  | some atom_index => m.graph.nodeWeight atom_index
  | none => none

/-- `EditContext::pos` (lines 321-323). -/
def Molecule.pos (m : Molecule) (spec : AtomSpecifier) : Option (Vec3 ℚ) :=
  m.positions.get? spec

/-- The inner march of `Molecule::get_ray_hit` (lines 215-231): at each of the
`num_steps` sample points, return the first atom (in node-index order) whose
sphere contains the point. -/
def Molecule.marchLoop (m : Molecule) (step : Vec3 ℚ) :
    Nat → Vec3 ℚ → Option AtomSpecifier
  | 0, _ => none
  | n + 1, current_pos =>
    match m.graph.nodeWeights.findSome? (fun atom =>
        if (current_pos - (m.positions.get? atom.spec).getD Vec3.zero).magSq
            < atom.element.radius * atom.element.radius
        then some atom.spec else none) with
    | some spec => some spec
    | none => Molecule.marchLoop m step n (current_pos + step)

/-- `Molecule::get_ray_hit` (lines 187-234): bounding-box intersection, then a
fixed-step march testing squared distance against each atom's radius.
(`crates/scene/src/molecule.rs` lines 390-439 contain a line-identical copy
of this routine; this definition covers both.) -/
def Molecule.get_ray_hit (m : Molecule) (origin direction : Vec3 ℚ) :
    Option AtomSpecifier :=
  match m.bounding_box.rayHitTimes origin direction with
  | none => none
  | some (tmin, tmax) =>
    if tmax ≤ 0 then none
    else
      let current_pos := origin + (max 0 tmin) • direction
      let step_size := Element.Hydrogen.radius / 10
      let step := step_size • direction
      let t_span := tmax - max 0 tmin
      let num_steps := (t_span / step_size).floor.toNat
      m.marchLoop step num_steps current_pos

end Mol

namespace Scene

/-- `scene::MoleculeRepr` (crate `scene`, lines 69-80): the materialized graph
state of the versioned molecule.  GPU buffers (`gpu_atoms`, `gpu_bonds`) are
out of scope (spec §1) and omitted; the `gpu_synced` flag is kept. -/
structure MoleculeRepr where
  atom_map : AMap AtomSpecifier Nat
  graph : MoleculeGraph
  bounding_box : BoundingBox
  gpu_synced : Bool
  positions : AtomPositions
deriving DecidableEq

/-- `MoleculeRepr::default()`. -/
def MoleculeRepr.default : MoleculeRepr :=
  { atom_map := [], graph := StableGraph.empty, bounding_box := .empty,
    gpu_synced := false, positions := [] }

/-- `MoleculeRepr::clear` (lines 118-123).  The source clears the atom map, the
graph, the bounding box and the sync flag — but not `positions`. -/
def MoleculeRepr.clear (r : MoleculeRepr) : MoleculeRepr :=
  { r with
    atom_map := [], graph := StableGraph.empty, bounding_box := .empty,
    gpu_synced := false }

/-- `MoleculeCheckpoint` (crate `scene`, lines 31-35). -/
structure MoleculeCheckpoint where
  graph : MoleculeGraph
  positions : AtomPositions
deriving DecidableEq

/-- `MoleculeRepr::set_checkpoint` (lines 159-167): restore graph and positions
and rebuild the specifier→index map.  (Unlike the `molecule`-crate twin, this
version does not touch the bounding box.) -/
def MoleculeRepr.set_checkpoint (r : MoleculeRepr) (checkpoint : MoleculeCheckpoint) :
    MoleculeRepr :=
  { r with
    graph := checkpoint.graph,
    positions := checkpoint.positions,
    atom_map := checkpoint.graph.nodeReferences.foldl
      (fun am p => am.insert p.2.spec p.1) [] }

/-- `MoleculeRepr::make_checkpoint` (lines 169-174). -/
def MoleculeRepr.make_checkpoint (r : MoleculeRepr) : MoleculeCheckpoint :=
  { graph := r.graph, positions := r.positions }

/-- `MoleculeCommands::add_atom` for `MoleculeRepr` (lines 195-222)
(line-identical to the `molecule`-crate version). -/
def MoleculeRepr.add_atom (r : MoleculeRepr) (element : Element) (pos : Vec3 ℚ)
    (spec : AtomSpecifier) (head : Option AtomSpecifier) :
    MoleculeRepr × Option EditError :=
  if r.atom_map.contains spec then
    (r, some .atomOverwrite)
  else
    let (g, index) := r.graph.addNode ⟨element, spec, head⟩
    ({ r with
        graph := g,
        atom_map := r.atom_map.insert spec index,
        bounding_box := r.bounding_box.encloseSphere pos element.radius,
        gpu_synced := false,
        positions := r.positions.insert spec pos }, none)

/-- `MoleculeCommands::create_bond` for `MoleculeRepr` (lines 224-237). -/
def MoleculeRepr.create_bond (r : MoleculeRepr) (a1 a2 : AtomSpecifier) (order : Nat) :
    MoleculeRepr × Option EditError :=
  match r.atom_map.get? a1, r.atom_map.get? a2 with
  | some i1, some i2 => ({ r with graph := r.graph.addEdge i1 i2 order }, none)
  | _, _ => (r, some (.brokenReference .atom))

/-- `MoleculeCommands::add_bonded_atom` for `MoleculeRepr` (lines 183-193):
`add_atom` first (with `head = bond_target`), then `create_bond`. -/
def MoleculeRepr.add_bonded_atom (r : MoleculeRepr) (element : Element) (pos : Vec3 ℚ)
    (spec : AtomSpecifier) (bond_target : AtomSpecifier) (bond_order : Nat) :
    MoleculeRepr × Option EditError :=
  match r.add_atom element pos spec (some bond_target) with
  | (r1, some e) => (r1, some e)
  | (r1, none) => r1.create_bond spec bond_target bond_order

/-- `MoleculeCommands::find_atom` for `MoleculeRepr` (lines 239-244). -/
def MoleculeRepr.find_atom (r : MoleculeRepr) (spec : AtomSpecifier) : Option AtomNode :=
  match r.atom_map.get? spec with
  | some atom_index => r.graph.nodeWeight atom_index
  | none => none

/-- `MoleculeCommands::pos` for `MoleculeRepr` (lines 246-248). -/
def MoleculeRepr.pos (r : MoleculeRepr) (spec : AtomSpecifier) : Option (Vec3 ℚ) :=
  r.positions.get? spec

/-- An abstract relaxation pass.  `MoleculeRepr::relax` delegates to
`dynamics::relax(&graph, &positions, 0.01)`, an unbounded-iteration
floating-point loop (embedded separately, over `ℝ`, in the `Dynamics`
namespace).  The history engine treats it as an opaque positions
transformer, so the history-engine claims are stated for every such
transformer; concrete evaluations instantiate it with the identity. -/
abbrev RelaxFn := MoleculeGraph → AtomPositions → AtomPositions

/-- `MoleculeRepr::relax` (lines 125-127) with the relaxation pass abstracted. -/
def MoleculeRepr.relaxWith (relaxFn : RelaxFn) (r : MoleculeRepr) : MoleculeRepr :=
  { r with positions := relaxFn r.graph r.positions }

/-- The identity relaxation pass, used to evaluate the history engine on
concrete inputs. -/
def relaxId : RelaxFn := fun _ p => p

/-- Modelled from the spec: the `Feature` enum of the missing
`scene/src/feature.rs` — "a variant over {root-atom creation, bonded-atom
creation, bulk import}" (§3; the bulk-import variant is an opaque batch and is
not needed by any claim).  Parameters follow the demo code at the top of
`scene/src/molecule.rs` (`RootAtom { element }`, `AtomFeature { target,
element }`). -/
inductive Feature
  | rootAtom (element : Element)
  | bondedAtom (target : AtomSpecifier) (element : Element)
deriving DecidableEq

/-- Modelled from the spec: `Feature::apply(&feature_id, commands)` — "a pure
function of (graph-state, feature-id, parameters) → (new graph-state | error)"
(§3), checking its preconditions against the graph first ("a Feature's
preconditions were not met", §7, is the error case).  The concrete placement
geometry of the missing `feature.rs` is modelled as a fixed offset from the
bond target; the created atom's specifier is derived from the feature id. -/
def Feature.apply (f : Feature) (feature_id : Nat) (r : MoleculeRepr) :
    MoleculeRepr × Option EditError :=
  match f with
  | .rootAtom element => r.add_atom element Vec3.zero ⟨feature_id⟩ none
  | .bondedAtom target element =>
    match r.pos target with
    | none => (r, some (.brokenReference .atom))
    | some p => r.add_bonded_atom element (p + ⟨0, 0, 4⟩) ⟨feature_id⟩ target 1

/-- Modelled from the spec: the missing `FeatureList` — "an ordered, insertable
sequence of Features addressed by stable identifiers independent of position"
(§2); "inserting a Feature at history step k shifts the positions (not the
IDs) of features after it" (§3).  `order` is the timeline order of feature
ids, `store` maps ids to features, `next_id` is the id counter. -/
structure FeatureList where
  order : List Nat
  store : AMap Nat Feature
  next_id : Nat
deriving DecidableEq

/-- `FeatureList::default()`. -/
def FeatureList.default : FeatureList := { order := [], store := [], next_id := 0 }

/-- Modelled from the spec: `FeatureList::len` — the timeline length. -/
def FeatureList.len (fl : FeatureList) : Nat := fl.order.length

/-- Modelled from the spec: `FeatureList::get(feature_id)`. -/
def FeatureList.get (fl : FeatureList) (feature_id : Nat) : Option Feature :=
  fl.store.get? feature_id

/-- Modelled from the spec: `FeatureList::insert(feature, position)` — assigns
the next stable id and splices it into `order` at `position`. -/
def FeatureList.insert (fl : FeatureList) (f : Feature) (position : Nat) : FeatureList :=
  { order := fl.order.insertIdx position fl.next_id,
    store := fl.store.insert fl.next_id f,
    next_id := fl.next_id + 1 }

/-- Modelled from the spec: `FeatureList::push_back` — insert at the end. -/
def FeatureList.push_back (fl : FeatureList) (f : Feature) : FeatureList :=
  fl.insert f fl.len

/-- `scene::Molecule` (lines 273-295): the versioned molecule.  The unused
display transform (`rotation`, `offset`) is omitted. -/
structure Molecule where
  repr : MoleculeRepr
  features : FeatureList
  history_step : Nat
  checkpoints : AMap Nat MoleculeCheckpoint
  dirty_step : Nat
deriving DecidableEq

/-- `Molecule::push_feature` (lines 323-325): inserts into the timeline at the
current history step; touches neither the materialized state, nor
`dirty_step`, nor the checkpoint cache. -/
def Molecule.push_feature (m : Molecule) (feature : Feature) : Molecule :=
  { m with features := m.features.insert feature m.history_step }

/-- The replay loop of `Molecule::set_history_step` (lines 363-377): for each
feature id in the slice, apply the feature — keeping whatever state `apply`
produced even when it reports an error (the error is only logged) — then run
the relaxation pass. -/
def replayRepr (relaxFn : RelaxFn) (features : FeatureList) (ids : List Nat)
    (r : MoleculeRepr) : MoleculeRepr :=
  ids.foldl
    (fun r feature_id =>
      (match features.get feature_id with
        | some f => (f.apply feature_id r).1
        | none => r).relaxWith relaxFn)
    r

/-- A placeholder checkpoint for the (unreachable) case where a cached key has
no stored value; the source `unwrap`s there. -/
def dummyCheckpoint : MoleculeCheckpoint := { graph := StableGraph.empty, positions := [] }

/-- `Molecule::set_history_step` (lines 330-381).  The out-of-range assertion
(line 332) is modelled by returning `none`.  Resume-point selection: the
greatest cached step ≤ target if any (restore it), else clear and restart from
0 when seeking backwards, else continue from the current state; then replay
`order[resume..target]` and set both counters to the target.  `dirty_step` is
never read. -/
def Molecule.set_history_step (relaxFn : RelaxFn) (m : Molecule) (history_step : Nat) :
    Option Molecule :=
  if history_step ≤ m.features.len then
    let best_checkpoint := (m.checkpoints.keys.filter (fun c => c ≤ history_step)).max?
    let resumed :=
      match best_checkpoint with
      | none =>
        if m.history_step > history_step then (m.repr.clear, 0) else (m.repr, m.history_step)
      | some best =>
        (m.repr.set_checkpoint ((m.checkpoints.get? best).getD dummyCheckpoint), best)
    let ids := (m.features.order.drop resumed.2).take (history_step - resumed.2)
    some { m with
      repr := replayRepr relaxFn m.features ids resumed.1,
      history_step := history_step,
      dirty_step := history_step }
  else none

/-- `Molecule::from_feature` (lines 298-317): apply the seed feature with id 0
(the source `expect`s success; failure is modelled as `none`), relax, and
start the timeline at step 1 with no checkpoints. -/
def Molecule.from_feature (relaxFn : RelaxFn) (feature : Feature) : Option Molecule :=
  match feature.apply 0 MoleculeRepr.default with
  | (_, some _) => none
  | (r, none) =>
    some
      { repr := r.relaxWith relaxFn,
        features := FeatureList.default.push_back feature,
        history_step := 1,
        checkpoints := [],
        dirty_step := 1 }

/-- `ProxyMolecule` (lines 445-453): the serialized form — timeline, counters
and checkpoint cache, but not the live graph/positions.  (The unused display
transform is omitted, as in `Molecule`.) -/
structure ProxyMolecule where
  features : FeatureList
  history_step : Nat
  checkpoints : AMap Nat MoleculeCheckpoint
  dirty_step : Nat
deriving DecidableEq

/-- `impl Serialize for Molecule` (lines 455-479): the byte encoding itself is
serde; its payload is the `ProxyMolecule` value, in which a checkpoint of the
current state is force-inserted at the current history step. -/
def serialize (m : Molecule) : ProxyMolecule :=
  { features := m.features,
    history_step := m.history_step,
    checkpoints := m.checkpoints.insert m.history_step m.repr.make_checkpoint,
    dirty_step := m.dirty_step }

/-- `impl Deserialize for Molecule` (lines 481-506): rebuild the molecule with a
default (empty) repr, then `set_history_step` to the saved step. -/
def deserialize (relaxFn : RelaxFn) (data : ProxyMolecule) : Option Molecule :=
  Molecule.set_history_step relaxFn
    { repr := MoleculeRepr.default,
      features := data.features,
      history_step := data.history_step,
      checkpoints := data.checkpoints,
      dirty_step := data.dirty_step }
    data.history_step

end Scene

/-- `Vec3::mag` (f32 square root modelled on `ℝ`). -/
noncomputable def Vec3.mag (v : Vec3 ℝ) : ℝ := Real.sqrt v.magSq

/-- `Vec3::normalized`: the vector scaled by the reciprocal of its magnitude. -/
noncomputable def Vec3.normalized (v : Vec3 ℝ) : Vec3 ℝ := (1 / v.mag) • v

namespace Dynamics

/-- Atom positions over `ℝ` for the relaxation engine. -/
abbrev RPositions := AMap AtomSpecifier (Vec3 ℝ)

/-- The force exerted on the atom at `node_index` by the atom at `other_index`
(`dynamics.rs` lines 36-44): a spring of stiffness 2 toward separation 4 when
bonded, else a repulsion of strength `1 / ‖d‖²`.  Note there is no special
case for a zero-length displacement: `normalized` and the division by
`mag_sq` are computed unconditionally. -/
noncomputable def pairForce (g : MoleculeGraph) (node_index other_index : Nat)
    (pos other_pos : Vec3 ℝ) : Vec3 ℝ :=
  let displacement := other_pos - pos
  if g.containsEdge node_index other_index then
    (2 * (displacement.mag - 4)) • displacement.normalized
  else
    (1 / displacement.magSq) • (-displacement.normalized)

/-- The summed force on one atom (`dynamics.rs` lines 29-45): iterate over all
other live nodes and accumulate `pairForce`.  (The source `unwrap`s position
lookups; missing positions are modelled as the zero vector and never occur on
inputs satisfying the every-atom-has-a-position invariant.) -/
noncomputable def atomForce (g : MoleculeGraph) (old_positions : RPositions)
    (node_index : Nat) (node : AtomNode) : Vec3 ℝ :=
  g.nodeReferences.foldl
    (fun force p =>
      if p.1 = node_index then force
      else
        force + pairForce g node_index p.1
          ((old_positions.get? node.spec).getD Vec3.zero)
          ((old_positions.get? p.2.spec).getD Vec3.zero))
    Vec3.zero

/-- The per-atom position delta (`dynamics.rs` lines 47-48): the summed force
scaled by the fixed step coefficient 0.1. -/
noncomputable def adjustment (g : MoleculeGraph) (old_positions : RPositions)
    (node_index : Nat) (node : AtomNode) : Vec3 ℝ :=
  (1 / 10 : ℝ) • atomForce g old_positions node_index node

/-- One Jacobi iteration (`dynamics.rs` lines 25-56): every delta is computed
from `old_positions` and the new positions are inserted into the scratch map
(the buffer being overwritten this generation). -/
noncomputable def buildStep (g : MoleculeGraph) (old_positions scratch : RPositions) :
    RPositions :=
  g.nodeReferences.foldl
    (fun positions p =>
      positions.insert p.2.spec
        (((old_positions.get? p.2.spec).getD Vec3.zero) + adjustment g old_positions p.1 p.2))
    scratch

/-- The largest delta magnitude of the iteration stepping from `old_positions`
(`dynamics.rs` lines 24, 50-52). -/
noncomputable def largestAdjustment (g : MoleculeGraph) (old_positions : RPositions) : ℝ :=
  g.nodeReferences.foldl
    (fun largest p =>
      if (adjustment g old_positions p.1 p.2).mag > largest
      then (adjustment g old_positions p.1 p.2).mag
      else largest)
    0

/-- The loop of `relax` (`dynamics.rs` lines 23-65) with explicit fuel (`none`
= the unbounded source loop did not terminate within `fuel` iterations).
Each pass builds the next generation into the scratch buffer, swaps, and
stops when the largest delta of the pass falls below the threshold — the
`break` happens *after* the swap, so the map returned on termination is
`old_positions`, the input of the terminating pass, and the terminating
pass's freshly built positions are discarded. -/
noncomputable def relaxAux (g : MoleculeGraph) (threshold : ℝ) :
    Nat → RPositions → RPositions → Option RPositions
  | 0, _, _ => none
  | fuel + 1, old_positions, scratch =>
    let positions := buildStep g old_positions scratch
    if largestAdjustment g old_positions < threshold then some old_positions
    else relaxAux g threshold fuel positions old_positions

/-- `relax(graph, positions, threshold)` (`dynamics.rs` lines 14-70), with
fuel. -/
noncomputable def relax (g : MoleculeGraph) (positions : RPositions) (threshold : ℝ)
    (fuel : Nat) : Option RPositions :=
  relaxAux g threshold fuel positions []

/-- The iteration sequence of the loop: `(relaxIter g p k).1` is the position
map used as `old_positions` by pass `k`, `.2` the scratch buffer it
overwrites. -/
noncomputable def relaxIter (g : MoleculeGraph) (p : RPositions) :
    Nat → RPositions × RPositions
  | 0 => (p, [])
  | k + 1 =>
    let s := relaxIter g p k
    (buildStep g s.1 s.2, s.1)

/-- The relaxation loop as claim C6 states it: identical force and termination
computations, but the terminating pass's deltas are applied to the returned
assignment ("applies all per-atom deltas ... returning the resulting position
assignment"). -/
noncomputable def relaxClaimAux (g : MoleculeGraph) (threshold : ℝ) :
    Nat → RPositions → RPositions → Option RPositions
  | 0, _, _ => none
  | fuel + 1, old_positions, scratch =>
    let positions := buildStep g old_positions scratch
    if largestAdjustment g old_positions < threshold then some positions
    else relaxClaimAux g threshold fuel positions old_positions

/-- The C6 reading of `relax`, for comparison with the embedded source. -/
noncomputable def relaxClaim (g : MoleculeGraph) (positions : RPositions) (threshold : ℝ)
    (fuel : Nat) : Option RPositions :=
  relaxClaimAux g threshold fuel positions []

/-- The spec's force sum (§4.2 step 1), written as a sum over the other live
nodes: spring `k_bond * (‖d‖ - L0)` along the normalized displacement when
bonded (`k_bond = 2`, `L0 = 4`), else repulsion `-k_rep / ‖d‖²` along the
normalized displacement (`k_rep = 1`). -/
noncomputable def specForceOn (g : MoleculeGraph) (p : RPositions)
    (node_index : Nat) (node : AtomNode) : Vec3 ℝ :=
  ((g.nodeReferences.filter (fun q => q.1 ≠ node_index)).map
      (fun q =>
        let d := ((p.get? q.2.spec).getD Vec3.zero) - ((p.get? node.spec).getD Vec3.zero)
        if g.containsEdge node_index q.1 then (2 * (d.mag - 4)) • d.normalized
        else (-(1 / d.magSq)) • d.normalized)).foldr
    (fun v acc => v + acc) Vec3.zero

end Dynamics

/-- The replay loop as the spec states it (C4): apply each feature in order —
an erroring feature's edit is tolerated and replay continues with the next
feature — and follow every application with a relaxation pass. -/
def Scene.replaySpec (relaxFn : Scene.RelaxFn) (features : Scene.FeatureList) :
    List Nat → Scene.MoleculeRepr → Scene.MoleculeRepr
  | [], r => r
  | feature_id :: rest, r =>
    let applied :=
      match features.get feature_id with
      | some f =>
        match f.apply feature_id r with
        | (r1, some _) => r1
        | (r1, none) => r1
      | none => r
    Scene.replaySpec relaxFn features rest (applied.relaxWith relaxFn)

/-- The bounding volume claim C8 asserts after a removal: a full recompute over
the live atoms only, starting from the empty volume. -/
def Mol.freshBoundingBox (m : Mol.Molecule) : BoundingBox :=
  m.graph.nodeWeights.foldl
    (fun bb atom =>
      bb.encloseSphere ((m.positions.get? atom.spec).getD Vec3.zero) atom.element.radius)
    BoundingBox.empty

/-- C1 failing input: build a molecule from a root feature, extend it to two
features, save/reload (which caches a checkpoint at step 2), seek back to
step 1, insert a new feature there (timeline position 1, earlier than the
cached step 2), and seek to step 2 again. -/
def c1Scenario : Option Scene.Molecule :=
  (Scene.Molecule.from_feature Scene.relaxId (.rootAtom .Hydrogen)).bind (fun m0 =>
    ((m0.push_feature (.bondedAtom ⟨0⟩ .Carbon)).set_history_step Scene.relaxId 2).bind
      (fun m2 =>
        (Scene.deserialize Scene.relaxId (Scene.serialize m2)).bind (fun m3 =>
          (m3.set_history_step Scene.relaxId 1).bind (fun m4 =>
            (m4.push_feature (.bondedAtom ⟨0⟩ .Nitrogen)).set_history_step Scene.relaxId 2))))

/-- C2 counterexample input: a freshly created one-feature molecule (no cached
checkpoints) on which step 0 — a prior-uncached step — is sought. -/
def c2Scenario : Option Scene.Molecule :=
  (Scene.Molecule.from_feature Scene.relaxId (.rootAtom .Hydrogen)).bind
    (fun m => m.set_history_step Scene.relaxId 0)

/-- C3/C5 witness molecule: one applied root feature and a cached checkpoint at
step 1 whose graph is empty (so checkpoint restoration is observable). -/
def c3Mol : Scene.Molecule :=
  { repr := (Scene.MoleculeRepr.default.add_atom .Hydrogen Vec3.zero ⟨0⟩ none).1,
    features :=
      (Scene.FeatureList.default.push_back (.rootAtom .Hydrogen)).push_back
        (.bondedAtom ⟨0⟩ .Carbon),
    history_step := 1,
    checkpoints := [(1, { graph := StableGraph.empty, positions := [] })],
    dirty_step := 1 }

/-- C4 witness input: root feature, then a feature referencing the unknown atom
99 (its replay errors), then a valid bonded feature — both pushed at history
step 1, so the timeline order is [root, bonded-to-0, broken] and a seek to 3
replays an erroring feature followed by a succeeding one.  (Both pushes
happen at step 1, so the later push lands earlier in the timeline.) -/
def c4Mol : Option Scene.Molecule :=
  (Scene.Molecule.from_feature Scene.relaxId (.rootAtom .Hydrogen)).map (fun m0 =>
    (m0.push_feature (.bondedAtom ⟨0⟩ .Nitrogen)).push_feature (.bondedAtom ⟨99⟩ .Carbon))

/-- C5 witness molecule: two applied features, no cached checkpoints. -/
def c5Mol : Option Scene.Molecule :=
  (Scene.Molecule.from_feature Scene.relaxId (.rootAtom .Hydrogen)).bind (fun m0 =>
    (m0.push_feature (.bondedAtom ⟨0⟩ .Carbon)).set_history_step Scene.relaxId 2)

/-- C6/C7 graph: two hydrogen atoms joined by a single bond. -/
def g6 : MoleculeGraph :=
  ⟨[some ⟨.Hydrogen, ⟨0⟩, none⟩, some ⟨.Hydrogen, ⟨1⟩, some ⟨0⟩⟩], [some (0, 1, 1)]⟩

/-- C6 positions: the bonded pair at separation 5 (equilibrium is 4), on the z
axis. -/
noncomputable def p6 : Dynamics.RPositions :=
  [(⟨0⟩, ⟨0, 0, 0⟩), (⟨1⟩, ⟨0, 0, 5⟩)]

/-- C7 failing input: two atoms, not bonded, at coincident positions. -/
def g7 : MoleculeGraph :=
  ⟨[some ⟨.Hydrogen, ⟨0⟩, none⟩, some ⟨.Hydrogen, ⟨1⟩, none⟩], []⟩

/-- C7 positions: both atoms at the origin. -/
noncomputable def p7 : Dynamics.RPositions :=
  [(⟨0⟩, ⟨0, 0, 0⟩), (⟨1⟩, ⟨0, 0, 0⟩)]

/-- C8 failing input: two bonded hydrogens at x = 0 and x = 10 (the second atom
is extremal in the bounding volume). -/
def c8Mol : Mol.Molecule :=
  (((Mol.Molecule.default.add_atom .Hydrogen ⟨0, 0, 0⟩ ⟨0⟩ none).1.add_atom
        .Hydrogen ⟨10, 0, 0⟩ ⟨1⟩ none).1.create_bond ⟨0⟩ ⟨1⟩ 1).1

/-- C9 molecule: a single hydrogen atom (radius 1) at the origin; its bounding
box is [-1, 1]³. -/
def c9Mol : Mol.Molecule :=
  (Mol.Molecule.default.add_atom .Hydrogen ⟨0, 0, 0⟩ ⟨0⟩ none).1

/-- C10 witness state: a molecule holding one carbon atom, to which a second
atom is added bonded to an unknown target. -/
def c10Mol : Mol.Molecule :=
  (Mol.Molecule.default.add_atom .Carbon ⟨0, 0, 0⟩ ⟨0⟩ none).1

/-- C10 witness state for the `scene` copy of `add_bonded_atom`. -/
def c10Repr : Scene.MoleculeRepr :=
  (Scene.MoleculeRepr.default.add_atom .Carbon ⟨0, 0, 0⟩ ⟨0⟩ none).1

/-- A neutral placeholder molecule used only to strip `Option` from concrete
witness inputs. -/
def dummyMolecule : Scene.Molecule :=
  { repr := Scene.MoleculeRepr.default, features := Scene.FeatureList.default,
    history_step := 0, checkpoints := [], dirty_step := 0 }

/-- C2 amended-claim witness input: a one-feature molecule. -/
def c2WMol : Scene.Molecule :=
  (Scene.Molecule.from_feature Scene.relaxId (.rootAtom .Oxygen)).getD dummyMolecule

/-- The result of seeking `c2WMol` to step 1. -/
def c2WMolSeeked : Scene.Molecule :=
  (c2WMol.set_history_step Scene.relaxId 1).getD dummyMolecule

/-- C4 witness input with the `Option` stripped. -/
def c4MolV : Scene.Molecule := c4Mol.getD dummyMolecule

/-- C5 witness input with the `Option` stripped. -/
def c5MolV : Scene.Molecule := c5Mol.getD dummyMolecule

theorem Vec3.add_def [Add α] (a b : Vec3 α) :
    a + b = ⟨a.x + b.x, a.y + b.y, a.z + b.z⟩ := rfl

theorem Vec3.sub_def [Sub α] (a b : Vec3 α) :
    a - b = ⟨a.x - b.x, a.y - b.y, a.z - b.z⟩ := rfl

theorem Vec3.neg_def [Neg α] (a : Vec3 α) : -a = ⟨-a.x, -a.y, -a.z⟩ := rfl

theorem Vec3.smul_def [Mul α] (c : α) (a : Vec3 α) :
    c • a = ⟨c * a.x, c * a.y, c * a.z⟩ := rfl

theorem vec3_add_zero [AddMonoid α] (a : Vec3 α) : a + Vec3.zero = a := by
  cases a
  simp [Vec3.add_def, Vec3.zero]

theorem vec3_zero_add [AddMonoid α] (a : Vec3 α) : Vec3.zero + a = a := by
  cases a
  simp [Vec3.add_def, Vec3.zero]

theorem vec3_add_assoc [AddMonoid α] (a b c : Vec3 α) : a + b + c = a + (b + c) := by
  cases a; cases b; cases c
  simp only [Vec3.add_def, Vec3.mk.injEq]
  refine ⟨?_, ?_, ?_⟩ <;> apply add_assoc

theorem vec3_smul_neg (c : ℝ) (v : Vec3 ℝ) : c • (-v) = (-c) • v := by
  cases v
  simp only [Vec3.smul_def, Vec3.neg_def, Vec3.mk.injEq]
  refine ⟨by ring, by ring, by ring⟩

theorem AMap.get?_insert_self [DecidableEq K] (m : AMap K V) (k : K) (v : V) :
    (m.insert k v).get? k = some v := by
  induction m with
  | nil => simp [AMap.insert, AMap.get?]
  | cons p rest ih =>
    obtain ⟨k', v'⟩ := p
    by_cases h : k' = k
    · simp [AMap.insert, AMap.get?, h]
    · simp [AMap.insert, AMap.get?, h, ih]

theorem AMap.get?_insert_ne [DecidableEq K] (m : AMap K V) (k k' : K) (v : V)
    (h : k ≠ k') : (m.insert k v).get? k' = m.get? k' := by
  induction m with
  | nil => simp [AMap.insert, AMap.get?, h]
  | cons p rest ih =>
    obtain ⟨k0, v0⟩ := p
    by_cases h0 : k0 = k
    · subst h0
      simp [AMap.insert, AMap.get?, h]
    · simp [AMap.insert, AMap.get?, h0, ih]

theorem AMap.mem_keys_insert_self [DecidableEq K] (m : AMap K V) (k : K) (v : V) :
    k ∈ (m.insert k v).keys := by
  induction m with
  | nil => simp [AMap.insert, AMap.keys]
  | cons p rest ih =>
    obtain ⟨k0, v0⟩ := p
    by_cases h0 : k0 = k
    · simp [AMap.insert, AMap.keys, h0]
    · simp only [AMap.insert, h0, if_false, AMap.keys, List.map_cons, List.mem_cons]
      exact Or.inr ih

theorem AMap.get?_isSome_of_mem_keys [DecidableEq K] (m : AMap K V) (k : K)
    (h : k ∈ m.keys) : ∃ v, m.get? k = some v := by
  induction m with
  | nil => simp [AMap.keys] at h
  | cons p rest ih =>
    obtain ⟨k0, v0⟩ := p
    by_cases h0 : k0 = k
    · exact ⟨v0, by simp [AMap.get?, h0]⟩
    · have : k ∈ AMap.keys rest := by
        have h9 := h
        simp only [AMap.keys, List.map_cons, List.mem_cons] at h9
        rcases h9 with h9 | h9
        · exact absurd h9.symm h0
        · simpa [AMap.keys] using h9
      obtain ⟨v, hv⟩ := ih this
      exact ⟨v, by simp [AMap.get?, h0, hv]⟩

theorem natList_foldl_max_eq (a : Nat) : ∀ (l : List Nat) (init : Nat),
    (a = init ∨ a ∈ l) → init ≤ a → (∀ b ∈ l, b ≤ a) → l.foldl max init = a := by
  intro l
  induction l with
  | nil =>
    intro init hmem _ _
    simpa using (hmem.resolve_right (by simp)).symm
  | cons x t ih =>
    intro init hmem hle hub
    simp only [List.foldl_cons]
    rcases hmem with h | h
    · subst h
      refine ih (max a x) ?_ ?_ (fun b hb => hub b (List.mem_cons_of_mem x hb))
      · left
        exact le_antisymm (le_max_left a x) (max_le le_rfl (hub x (by simp)))
      · exact max_le le_rfl (hub x (by simp))
    · rcases List.mem_cons.mp h with h | h
      · subst h
        refine ih (max init a) ?_ ?_ (fun b hb => hub b (List.mem_cons_of_mem a hb))
        · left
          exact le_antisymm (le_max_right init a) (max_le hle le_rfl)
        · exact max_le hle le_rfl
      · exact ih (max init x) (Or.inr h) (max_le hle (hub x (by simp)))
          (fun b hb => hub b (List.mem_cons_of_mem x hb))

theorem natList_max?_eq_some (l : List Nat) (a : Nat) (ha : a ∈ l)
    (hub : ∀ b ∈ l, b ≤ a) : l.max? = some a := by
  cases l with
  | nil => simp at ha
  | cons x t =>
    simp only [List.max?]
    congr 1
    rcases List.mem_cons.mp ha with h | h
    · exact natList_foldl_max_eq a t x (Or.inl h) (le_of_eq h.symm)
        (fun b hb => hub b (List.mem_cons_of_mem x hb))
    · exact natList_foldl_max_eq a t x (Or.inr h) (hub x (by simp))
        (fun b hb => hub b (List.mem_cons_of_mem x hb))

/-- C1 (code bug): with a checkpoint cached at step 2, inserting a feature at
history step 1 (earlier than the checkpoint) and then seeking to step 2 — a
target at the checkpoint's step — restores the stale checkpoint unchanged:
the final timeline has 3 features with the inserted feature (id 2) at
position 1, yet the materialized graph does not contain the inserted
feature's atom (specifier 2) and still contains the superseded step-2 atom
of the old timeline (specifier 1, the carbon).  `push_feature` drops no
checkpoint and `dirty_step` is never consulted, so the stale checkpoint
leaks, contradicting the claimed invariant. -/
theorem c1_stale_checkpoint_leak :
    c1Scenario.map (fun m =>
        (m.repr.find_atom ⟨2⟩, m.repr.find_atom ⟨1⟩, m.features.len, m.history_step,
          (m.checkpoints.keys.filter (fun c => c ≤ 2)).max?))
      = some (none, some ⟨.Carbon, ⟨1⟩, some ⟨0⟩⟩, 3, 2, some 2) :=
  of_decide_eq_true (by with_unfolding_all rfl)

/-- C8 (code bug): on the two-atom molecule `c8Mol` (hydrogens at x = 0 and
x = 10, bonded), `remove_atom ⟨1⟩` succeeds, removes the node, its incident
bond, its cached position, and leaves every other specifier resolving to the
same atom — but the claimed "full recompute" of the bounding volume does not
happen: `recompute_bounding_box` unions the live atoms into the *existing*
box without resetting it, so the removed extremal atom's extent (x up to 11)
persists, differing from the recompute-from-scratch volume over live atoms.
Removing an unknown specifier fails with `BrokenReference` and leaves the
molecule unchanged. -/
theorem c8_remove_atom_stale_bounding_box :
    (c8Mol.remove_atom ⟨1⟩).2 = none ∧
    (c8Mol.remove_atom ⟨1⟩).1.find_atom ⟨1⟩ = none ∧
    (c8Mol.remove_atom ⟨1⟩).1.pos ⟨1⟩ = none ∧
    (c8Mol.remove_atom ⟨1⟩).1.find_atom ⟨0⟩ = c8Mol.find_atom ⟨0⟩ ∧
    (c8Mol.remove_atom ⟨1⟩).1.find_atom ⟨0⟩ = some ⟨.Hydrogen, ⟨0⟩, none⟩ ∧
    (c8Mol.remove_atom ⟨1⟩).1.graph.edgeCount = 0 ∧
    (c8Mol.remove_atom ⟨1⟩).1.graph.nodeCount = 1 ∧
    (c8Mol.remove_atom ⟨47⟩).2 = some (.brokenReference .atom) ∧
    (c8Mol.remove_atom ⟨47⟩).1 = c8Mol ∧
    (c8Mol.remove_atom ⟨1⟩).1.bounding_box = .box ⟨-1, -1, -1⟩ ⟨11, 1, 1⟩ ∧
    Mol.freshBoundingBox (c8Mol.remove_atom ⟨1⟩).1 = .box ⟨-1, -1, -1⟩ ⟨1, 1, 1⟩ ∧
    (c8Mol.remove_atom ⟨1⟩).1.bounding_box ≠
      Mol.freshBoundingBox (c8Mol.remove_atom ⟨1⟩).1 :=
  of_decide_eq_true (by with_unfolding_all rfl)

/-- C2 counterexample: a freshly created molecule has no cached checkpoints, so
step 0 is a prior-uncached step; yet after `set_history_step` to 0 the
checkpoint cache is still empty — no checkpoint of the resulting state was
recorded at step 0, contrary to the claimed snapshot-on-seek behavior. -/
theorem c2_counterexample :
    (Scene.Molecule.from_feature Scene.relaxId (.rootAtom .Hydrogen)).map
        (fun m => m.checkpoints) = some [] ∧
    c2Scenario.map (fun m => (m.history_step, m.checkpoints.get? 0, m.checkpoints))
      = some (0, none, []) :=
  of_decide_eq_true (by with_unfolding_all rfl)

/-- C2 amended: `set_history_step` never records a checkpoint — it returns the
cache unchanged for every target; the only checkpoint insertion in the
sources is the force-inserted snapshot of the current state at serialization
time. -/
theorem c2_no_snapshot_on_seek (relaxFn : Scene.RelaxFn) (m : Scene.Molecule)
    (target : Nat) (m9 : Scene.Molecule)
    (h : m.set_history_step relaxFn target = some m9) :
    m9.checkpoints = m.checkpoints ∧
    (Scene.serialize m).checkpoints
      = m.checkpoints.insert m.history_step m.repr.make_checkpoint := by
  refine ⟨?_, rfl⟩
  unfold Scene.Molecule.set_history_step at h
  by_cases hle : target ≤ m.features.len
  · rw [if_pos hle] at h
    obtain rfl := (Option.some.inj h).symm
    rfl
  · rw [if_neg hle] at h
    exact absurd h (by simp)

/-- C2 witness: the amended claim evaluated on the concrete one-feature
molecule `c2WMol` sought to step 1. -/
theorem c2_no_snapshot_on_seek_witness :
    c2WMol.set_history_step Scene.relaxId 1 = some c2WMolSeeked ∧
    (c2WMolSeeked.checkpoints = c2WMol.checkpoints ∧
      (Scene.serialize c2WMol).checkpoints
        = c2WMol.checkpoints.insert c2WMol.history_step c2WMol.repr.make_checkpoint) :=
  ⟨of_decide_eq_true (by with_unfolding_all rfl),
    c2_no_snapshot_on_seek Scene.relaxId c2WMol 1 c2WMolSeeked
      (of_decide_eq_true (by with_unfolding_all rfl))⟩

theorem list_get?_concat (l : List α) (a : α) : (l ++ [a]).get? l.length = some a := by
  induction l with
  | nil => rfl
  | cons x t ih => exact ih

/-- C10 (confirmed): when the new atom's specifier is fresh but the bond target
is unknown, `add_bonded_atom` returns `BrokenReference` — yet the new atom
has already been inserted into the graph, the atom map, the positions and the
bounding volume, with `head` set to the unknown bond target, and is not
rolled back.  Stated for both line-identical copies (`molecule::Molecule`
and `scene::MoleculeRepr`). -/
theorem c10_add_bonded_atom_not_atomic (m : Mol.Molecule) (r : Scene.MoleculeRepr)
    (element : Element) (pos : Vec3 ℚ) (spec bond_target : AtomSpecifier) (order : Nat)
    (h1 : m.atom_map.get? spec = none) (h2 : m.atom_map.get? bond_target = none)
    (h3 : r.atom_map.get? spec = none) (h4 : r.atom_map.get? bond_target = none)
    (hne : spec ≠ bond_target) :
    ((m.add_bonded_atom element pos spec bond_target order).2
        = some (.brokenReference .atom) ∧
      (m.add_bonded_atom element pos spec bond_target order).1.find_atom spec
        = some ⟨element, spec, some bond_target⟩ ∧
      (m.add_bonded_atom element pos spec bond_target order).1.pos spec = some pos ∧
      (m.add_bonded_atom element pos spec bond_target order).1.bounding_box
        = m.bounding_box.encloseSphere pos element.radius ∧
      (m.add_bonded_atom element pos spec bond_target order).1.graph.nodeCount
        = m.graph.nodeCount + 1) ∧
    ((r.add_bonded_atom element pos spec bond_target order).2
        = some (.brokenReference .atom) ∧
      (r.add_bonded_atom element pos spec bond_target order).1.find_atom spec
        = some ⟨element, spec, some bond_target⟩ ∧
      (r.add_bonded_atom element pos spec bond_target order).1.pos spec = some pos ∧
      (r.add_bonded_atom element pos spec bond_target order).1.bounding_box
        = r.bounding_box.encloseSphere pos element.radius ∧
      (r.add_bonded_atom element pos spec bond_target order).1.graph.nodeCount
        = r.graph.nodeCount + 1) := by
  constructor
  · have hc : m.atom_map.contains spec = false := by
      simp [AMap.contains, h1]
    have e1 : m.add_bonded_atom element pos spec bond_target order
        = ({ m with
              graph := { m.graph with
                nodes := m.graph.nodes ++ [some ⟨element, spec, some bond_target⟩] },
              atom_map := m.atom_map.insert spec m.graph.nodes.length,
              bounding_box := m.bounding_box.encloseSphere pos element.radius,
              gpu_synced := false,
              positions := m.positions.insert spec pos },
            some (.brokenReference .atom)) := by
      unfold Mol.Molecule.add_bonded_atom Mol.Molecule.add_atom
      rw [hc]
      simp only [Bool.false_eq_true, if_false, StableGraph.addNode]
      unfold Mol.Molecule.create_bond
      simp only [AMap.get?_insert_self, AMap.get?_insert_ne _ _ _ _ hne, h2]
    rw [e1]
    refine ⟨rfl, ?_, ?_, rfl, ?_⟩
    · unfold Mol.Molecule.find_atom
      simp only [AMap.get?_insert_self, StableGraph.nodeWeight, list_get?_concat,
        Option.bind_some]
      rfl
    · unfold Mol.Molecule.pos
      simp only [AMap.get?_insert_self]
    · unfold StableGraph.nodeCount StableGraph.nodeWeights
      simp [List.filterMap_append]
  · have hc : r.atom_map.contains spec = false := by
      simp [AMap.contains, h3]
    have e1 : r.add_bonded_atom element pos spec bond_target order
        = ({ r with
              graph := { r.graph with
                nodes := r.graph.nodes ++ [some ⟨element, spec, some bond_target⟩] },
              atom_map := r.atom_map.insert spec r.graph.nodes.length,
              bounding_box := r.bounding_box.encloseSphere pos element.radius,
              gpu_synced := false,
              positions := r.positions.insert spec pos },
            some (.brokenReference .atom)) := by
      unfold Scene.MoleculeRepr.add_bonded_atom Scene.MoleculeRepr.add_atom
      rw [hc]
      simp only [Bool.false_eq_true, if_false, StableGraph.addNode]
      unfold Scene.MoleculeRepr.create_bond
      simp only [AMap.get?_insert_self, AMap.get?_insert_ne _ _ _ _ hne, h4]
    rw [e1]
    refine ⟨rfl, ?_, ?_, rfl, ?_⟩
    · unfold Scene.MoleculeRepr.find_atom
      simp only [AMap.get?_insert_self, StableGraph.nodeWeight, list_get?_concat,
        Option.bind_some]
      rfl
    · unfold Scene.MoleculeRepr.pos
      simp only [AMap.get?_insert_self]
    · unfold StableGraph.nodeCount StableGraph.nodeWeights
      simp [List.filterMap_append]

/-- C10 witness: the theorem evaluated on a one-carbon molecule with a fresh
specifier 7 and unknown bond target 42. -/
theorem c10_add_bonded_atom_not_atomic_witness :
    (c10Mol.atom_map.get? ⟨7⟩ = none ∧ c10Mol.atom_map.get? ⟨42⟩ = none ∧
      c10Repr.atom_map.get? ⟨7⟩ = none ∧ c10Repr.atom_map.get? ⟨42⟩ = none ∧
      (⟨7⟩ : AtomSpecifier) ≠ ⟨42⟩) ∧
    (((c10Mol.add_bonded_atom .Hydrogen ⟨1, 1, 1⟩ ⟨7⟩ ⟨42⟩ 1).2
        = some (.brokenReference .atom) ∧
      (c10Mol.add_bonded_atom .Hydrogen ⟨1, 1, 1⟩ ⟨7⟩ ⟨42⟩ 1).1.find_atom ⟨7⟩
        = some ⟨.Hydrogen, ⟨7⟩, some ⟨42⟩⟩ ∧
      (c10Mol.add_bonded_atom .Hydrogen ⟨1, 1, 1⟩ ⟨7⟩ ⟨42⟩ 1).1.pos ⟨7⟩
        = some ⟨1, 1, 1⟩ ∧
      (c10Mol.add_bonded_atom .Hydrogen ⟨1, 1, 1⟩ ⟨7⟩ ⟨42⟩ 1).1.bounding_box
        = c10Mol.bounding_box.encloseSphere ⟨1, 1, 1⟩ Element.Hydrogen.radius ∧
      (c10Mol.add_bonded_atom .Hydrogen ⟨1, 1, 1⟩ ⟨7⟩ ⟨42⟩ 1).1.graph.nodeCount
        = c10Mol.graph.nodeCount + 1) ∧
    ((c10Repr.add_bonded_atom .Hydrogen ⟨1, 1, 1⟩ ⟨7⟩ ⟨42⟩ 1).2
        = some (.brokenReference .atom) ∧
      (c10Repr.add_bonded_atom .Hydrogen ⟨1, 1, 1⟩ ⟨7⟩ ⟨42⟩ 1).1.find_atom ⟨7⟩
        = some ⟨.Hydrogen, ⟨7⟩, some ⟨42⟩⟩ ∧
      (c10Repr.add_bonded_atom .Hydrogen ⟨1, 1, 1⟩ ⟨7⟩ ⟨42⟩ 1).1.pos ⟨7⟩
        = some ⟨1, 1, 1⟩ ∧
      (c10Repr.add_bonded_atom .Hydrogen ⟨1, 1, 1⟩ ⟨7⟩ ⟨42⟩ 1).1.bounding_box
        = c10Repr.bounding_box.encloseSphere ⟨1, 1, 1⟩ Element.Hydrogen.radius ∧
      (c10Repr.add_bonded_atom .Hydrogen ⟨1, 1, 1⟩ ⟨7⟩ ⟨42⟩ 1).1.graph.nodeCount
        = c10Repr.graph.nodeCount + 1)) :=
  ⟨⟨of_decide_eq_true (by with_unfolding_all rfl),
      of_decide_eq_true (by with_unfolding_all rfl),
      of_decide_eq_true (by with_unfolding_all rfl),
      of_decide_eq_true (by with_unfolding_all rfl),
      of_decide_eq_true (by with_unfolding_all rfl)⟩,
    c10_add_bonded_atom_not_atomic c10Mol c10Repr .Hydrogen ⟨1, 1, 1⟩ ⟨7⟩ ⟨42⟩ 1
      (of_decide_eq_true (by with_unfolding_all rfl))
      (of_decide_eq_true (by with_unfolding_all rfl))
      (of_decide_eq_true (by with_unfolding_all rfl))
      (of_decide_eq_true (by with_unfolding_all rfl))
      (of_decide_eq_true (by with_unfolding_all rfl))⟩

/-- C3 (confirmed): resume-point selection of `set_history_step`, for every
molecule and every target within the timeline.  (a) If some cached checkpoint
step is ≤ target, the one with the greatest such step is restored and replay
resumes from that step; (b) if none exists and the seek goes backwards, the
state is reset to the cleared representation and replay resumes from step 0;
(c) if none exists and the seek goes forwards, the current state is kept and
replay resumes from the current history step.  In all cases both counters end
at the target. -/
theorem c3_resume_point_selection (relaxFn : Scene.RelaxFn) (m : Scene.Molecule)
    (target : Nat) (h : target ≤ m.features.len) :
    (∀ cstar, cstar ∈ m.checkpoints.keys → cstar ≤ target →
      (∀ c ∈ m.checkpoints.keys, c ≤ target → c ≤ cstar) →
      ∃ cp, m.checkpoints.get? cstar = some cp ∧
        m.set_history_step relaxFn target = some
          { repr := Scene.replayRepr relaxFn m.features
              ((m.features.order.drop cstar).take (target - cstar))
              (m.repr.set_checkpoint cp),
            features := m.features, history_step := target,
            checkpoints := m.checkpoints, dirty_step := target }) ∧
    ((∀ c ∈ m.checkpoints.keys, ¬ c ≤ target) → target < m.history_step →
      m.set_history_step relaxFn target = some
        { repr := Scene.replayRepr relaxFn m.features
            (m.features.order.take target) m.repr.clear,
          features := m.features, history_step := target,
          checkpoints := m.checkpoints, dirty_step := target }) ∧
    ((∀ c ∈ m.checkpoints.keys, ¬ c ≤ target) → m.history_step ≤ target →
      m.set_history_step relaxFn target = some
        { repr := Scene.replayRepr relaxFn m.features
            ((m.features.order.drop m.history_step).take (target - m.history_step))
            m.repr,
          features := m.features, history_step := target,
          checkpoints := m.checkpoints, dirty_step := target }) := by
  refine ⟨?_, ?_, ?_⟩
  · intro cstar hmem hle hub
    obtain ⟨cp, hcp⟩ := AMap.get?_isSome_of_mem_keys m.checkpoints cstar hmem
    refine ⟨cp, hcp, ?_⟩
    have hmax : ((m.checkpoints.keys.filter (fun c => c ≤ target)).max?) = some cstar := by
      refine natList_max?_eq_some _ _ ?_ ?_
      · simp only [List.mem_filter, decide_eq_true_eq]
        exact ⟨hmem, hle⟩
      · intro b hb
        simp only [List.mem_filter, decide_eq_true_eq] at hb
        exact hub b hb.1 hb.2
    unfold Scene.Molecule.set_history_step
    rw [if_pos h]
    simp only [hmax, hcp, Option.getD_some]
  · intro hnone hlt
    have hnil : m.checkpoints.keys.filter (fun c => c ≤ target) = [] := by
      simp only [List.filter_eq_nil_iff, decide_eq_true_eq]
      exact hnone
    unfold Scene.Molecule.set_history_step
    rw [if_pos h]
    simp only [hnil, List.max?_nil, if_pos hlt, List.drop_zero, Nat.sub_zero]
  · intro hnone hge
    have hnil : m.checkpoints.keys.filter (fun c => c ≤ target) = [] := by
      simp only [List.filter_eq_nil_iff, decide_eq_true_eq]
      exact hnone
    unfold Scene.Molecule.set_history_step
    rw [if_pos h]
    simp only [hnil, List.max?_nil, if_neg (not_lt.mpr hge)]

/-- C3 witness: the selection evaluated on `c3Mol` (a checkpoint cached at
step 1, timeline of length 2), seeking to step 2 — case (a) fires with the
step-1 checkpoint. -/
theorem c3_resume_point_selection_witness :
    2 ≤ c3Mol.features.len ∧
    (∃ cp, c3Mol.checkpoints.get? 1 = some cp ∧
      c3Mol.set_history_step Scene.relaxId 2 = some
        { repr := Scene.replayRepr Scene.relaxId c3Mol.features
            ((c3Mol.features.order.drop 1).take (2 - 1))
            (c3Mol.repr.set_checkpoint cp),
          features := c3Mol.features, history_step := 2,
          checkpoints := c3Mol.checkpoints, dirty_step := 2 }) :=
  ⟨of_decide_eq_true (by with_unfolding_all rfl),
    (c3_resume_point_selection Scene.relaxId c3Mol 2
        (of_decide_eq_true (by with_unfolding_all rfl))).1 1
      (of_decide_eq_true (by with_unfolding_all rfl))
      (of_decide_eq_true (by with_unfolding_all rfl))
      (of_decide_eq_true (by with_unfolding_all rfl))⟩

/-- C4 (confirmed): a feature whose `apply` errors during replay does not abort
`set_history_step`: (1) the call succeeds and sets both `history_step` and
`dirty_step` to the target regardless of failures; (2) the source replay loop
equals the spec-side replay in which an erroring feature's result state is
kept and replay continues with the next feature, each application being
followed by a relaxation pass; (3) a feature that errors without touching the
state is skipped entirely — replay continues on the relaxed unchanged
state. -/
theorem c4_replay_error_tolerance (relaxFn : Scene.RelaxFn) (m : Scene.Molecule)
    (target : Nat) (h : target ≤ m.features.len) :
    (∃ m9, m.set_history_step relaxFn target = some m9 ∧
      m9.history_step = target ∧ m9.dirty_step = target) ∧
    (∀ ids r, Scene.replayRepr relaxFn m.features ids r
      = Scene.replaySpec relaxFn m.features ids r) ∧
    (∀ feature_id ids r f, m.features.get feature_id = some f →
      (f.apply feature_id r).2.isSome → (f.apply feature_id r).1 = r →
      Scene.replayRepr relaxFn m.features (feature_id :: ids) r
        = Scene.replayRepr relaxFn m.features ids (r.relaxWith relaxFn)) := by
  refine ⟨?_, ?_, ?_⟩
  · unfold Scene.Molecule.set_history_step
    rw [if_pos h]
    exact ⟨_, rfl, rfl, rfl⟩
  · intro ids
    induction ids with
    | nil => intro r; rfl
    | cons fid rest ih =>
      intro r
      have hstep : Scene.replayRepr relaxFn m.features (fid :: rest) r
          = Scene.replayRepr relaxFn m.features rest
            ((match m.features.get fid with
              | some f => (f.apply fid r).1
              | none => r).relaxWith relaxFn) := rfl
      rw [hstep, ih]
      show Scene.replaySpec relaxFn m.features rest _
        = Scene.replaySpec relaxFn m.features (fid :: rest) r
      rw [Scene.replaySpec]
      rcases hg : m.features.get fid with _ | f
      · simp only [hg]
      · rcases ha : f.apply fid r with ⟨r1, e⟩
        cases e <;> simp only [hg, ha]
  · intro feature_id ids r f hget _ heq
    have h0 : (match m.features.get feature_id with
        | some f0 => (f0.apply feature_id r).1
        | none => r) = r := by
      rw [hget]
      exact heq
    have hstep : Scene.replayRepr relaxFn m.features (feature_id :: ids) r
        = Scene.replayRepr relaxFn m.features ids
          ((match m.features.get feature_id with
            | some f0 => (f0.apply feature_id r).1
            | none => r).relaxWith relaxFn) := rfl
    rw [hstep, h0]

/-- C4 witness: `c4MolV`'s timeline is [root(H), bonded(target 99, errors),
bonded(target 0, succeeds)]; seeking to step 3 replays the erroring feature
followed by the succeeding one: the call succeeds, both counters reach 3,
the erroring feature's atom (specifier 2) is absent and the subsequent
feature's atom (specifier 1) is present. -/
theorem c4_replay_error_tolerance_witness :
    3 ≤ c4MolV.features.len ∧
    ((∃ m9, c4MolV.set_history_step Scene.relaxId 3 = some m9 ∧
        m9.history_step = 3 ∧ m9.dirty_step = 3) ∧
      (∀ ids r, Scene.replayRepr Scene.relaxId c4MolV.features ids r
        = Scene.replaySpec Scene.relaxId c4MolV.features ids r) ∧
      (∀ feature_id ids r f, c4MolV.features.get feature_id = some f →
        (f.apply feature_id r).2.isSome → (f.apply feature_id r).1 = r →
        Scene.replayRepr Scene.relaxId c4MolV.features (feature_id :: ids) r
          = Scene.replayRepr Scene.relaxId c4MolV.features ids
              (r.relaxWith Scene.relaxId))) ∧
    (c4MolV.set_history_step Scene.relaxId 3).map (fun mm => mm.repr.find_atom ⟨2⟩)
      = some none ∧
    (c4MolV.set_history_step Scene.relaxId 3).map
        (fun mm => (mm.repr.find_atom ⟨1⟩).isSome) = some true ∧
    (c4MolV.set_history_step Scene.relaxId 3).map
        (fun mm => (mm.history_step, mm.dirty_step)) = some (3, 3) :=
  ⟨of_decide_eq_true (by with_unfolding_all rfl),
    c4_replay_error_tolerance Scene.relaxId c4MolV 3
      (of_decide_eq_true (by with_unfolding_all rfl)),
    of_decide_eq_true (by with_unfolding_all rfl),
    of_decide_eq_true (by with_unfolding_all rfl),
    of_decide_eq_true (by with_unfolding_all rfl)⟩

/-- C5 (confirmed): serializing force-inserts a checkpoint of the current graph
and positions at the current history step, and deserializing the payload
reconstructs a molecule whose representation is exactly the restored forced
checkpoint — the graph and positions equal the original's and zero features
are replayed (the restored checkpoint step equals the target, so the replay
slice is empty). -/
theorem c5_serialize_roundtrip (relaxFn : Scene.RelaxFn) (m : Scene.Molecule)
    (h : m.history_step ≤ m.features.len) :
    (Scene.serialize m).checkpoints.get? m.history_step
      = some m.repr.make_checkpoint ∧
    Scene.deserialize relaxFn (Scene.serialize m) = some
      { repr := Scene.MoleculeRepr.default.set_checkpoint m.repr.make_checkpoint,
        features := m.features,
        history_step := m.history_step,
        checkpoints := m.checkpoints.insert m.history_step m.repr.make_checkpoint,
        dirty_step := m.history_step } ∧
    (Scene.MoleculeRepr.default.set_checkpoint m.repr.make_checkpoint).graph
      = m.repr.graph ∧
    (Scene.MoleculeRepr.default.set_checkpoint m.repr.make_checkpoint).positions
      = m.repr.positions := by
  refine ⟨AMap.get?_insert_self _ _ _, ?_, rfl, rfl⟩
  have hmax : (((m.checkpoints.insert m.history_step m.repr.make_checkpoint).keys).filter
      (fun c => c ≤ m.history_step)).max? = some m.history_step := by
    refine natList_max?_eq_some _ _ ?_ ?_
    · simp only [List.mem_filter, decide_eq_true_eq]
      exact ⟨AMap.mem_keys_insert_self _ _ _, le_refl _⟩
    · intro b hb
      simp only [List.mem_filter, decide_eq_true_eq] at hb
      exact hb.2
  unfold Scene.deserialize Scene.serialize
  unfold Scene.Molecule.set_history_step
  dsimp only
  rw [if_pos h]
  simp only [hmax, AMap.get?_insert_self, Option.getD_some, Nat.sub_self,
    List.take_zero]
  rfl

/-- C5 witness: the round trip evaluated on the concrete two-feature molecule
`c5MolV`. -/
theorem c5_serialize_roundtrip_witness :
    c5MolV.history_step ≤ c5MolV.features.len ∧
    ((Scene.serialize c5MolV).checkpoints.get? c5MolV.history_step
        = some c5MolV.repr.make_checkpoint ∧
      Scene.deserialize Scene.relaxId (Scene.serialize c5MolV) = some
        { repr := Scene.MoleculeRepr.default.set_checkpoint
            c5MolV.repr.make_checkpoint,
          features := c5MolV.features,
          history_step := c5MolV.history_step,
          checkpoints := c5MolV.checkpoints.insert c5MolV.history_step
            c5MolV.repr.make_checkpoint,
          dirty_step := c5MolV.history_step } ∧
      (Scene.MoleculeRepr.default.set_checkpoint c5MolV.repr.make_checkpoint).graph
        = c5MolV.repr.graph ∧
      (Scene.MoleculeRepr.default.set_checkpoint
          c5MolV.repr.make_checkpoint).positions = c5MolV.repr.positions) :=
  ⟨of_decide_eq_true (by with_unfolding_all rfl),
    c5_serialize_roundtrip Scene.relaxId c5MolV
      (of_decide_eq_true (by with_unfolding_all rfl))⟩

theorem c9_slab_x0 : BoundingBox.slabAxis (-1) 1 0 0 = some none :=
  of_decide_eq_true (by with_unfolding_all rfl)

theorem c9_slab_x5 : BoundingBox.slabAxis (-1) 1 5 0 = none :=
  of_decide_eq_true (by with_unfolding_all rfl)

theorem c9_slab_zdown (z0 : ℚ) :
    BoundingBox.slabAxis (-1) 1 z0 (-1) = some (some (z0 - 1, z0 + 1)) := by
  unfold BoundingBox.slabAxis
  rw [if_neg (by norm_num : ¬ (-1 : ℚ) = 0)]
  have d1 : ((-1 : ℚ) - z0) / (-1) = z0 + 1 := by ring
  have d2 : ((1 : ℚ) - z0) / (-1) = z0 - 1 := by ring
  rw [d1, d2, min_eq_right (by linarith), max_eq_left (by linarith)]

theorem c9_slab_zup (z0 : ℚ) :
    BoundingBox.slabAxis (-1) 1 z0 1 = some (some (-1 - z0, 1 - z0)) := by
  unfold BoundingBox.slabAxis
  rw [if_neg (by norm_num : ¬ (1 : ℚ) = 0)]
  have d1 : ((-1 : ℚ) - z0) / 1 = -1 - z0 := by ring
  have d2 : ((1 : ℚ) - z0) / 1 = 1 - z0 := by ring
  rw [d1, d2, min_eq_left (by linarith), max_eq_right (by linarith)]

theorem c9_ray_down (z0 : ℚ) :
    BoundingBox.rayHitTimes (.box ⟨-1, -1, -1⟩ ⟨1, 1, 1⟩) ⟨0, 0, z0⟩ ⟨0, 0, -1⟩
      = some (z0 - 1, z0 + 1) := by
  unfold BoundingBox.rayHitTimes
  dsimp only
  rw [c9_slab_x0, c9_slab_zdown z0]
  dsimp only [List.filterMap_cons, List.filterMap_nil, id, List.foldl_nil]
  rw [if_pos (by linarith : z0 - 1 ≤ z0 + 1)]

theorem c9_ray_up (z0 : ℚ) :
    BoundingBox.rayHitTimes (.box ⟨-1, -1, -1⟩ ⟨1, 1, 1⟩) ⟨0, 0, z0⟩ ⟨0, 0, 1⟩
      = some (-1 - z0, 1 - z0) := by
  unfold BoundingBox.rayHitTimes
  dsimp only
  rw [c9_slab_x0, c9_slab_zup z0]
  dsimp only [List.filterMap_cons, List.filterMap_nil, id, List.foldl_nil]
  rw [if_pos (by linarith : -1 - z0 ≤ 1 - z0)]

/-- C9 (confirmed): with a single hydrogen atom (radius 1) at the origin
(bounding box [-1, 1]³), for every rational start height z0 > 1: a ray from
(0, 0, z0) aimed straight down at the atom returns the atom's specifier; the
same origin aimed straight up (the box lies entirely behind the ray) returns
`none`; a parallel downward ray from (5, 5, z0), which never intersects the
bounding box, returns `none`. -/
theorem c9_ray_query (z0 : ℚ) (h : 1 < z0) :
    c9Mol.get_ray_hit ⟨0, 0, z0⟩ ⟨0, 0, -1⟩ = some ⟨0⟩ ∧
    c9Mol.get_ray_hit ⟨0, 0, z0⟩ ⟨0, 0, 1⟩ = none ∧
    c9Mol.get_ray_hit ⟨5, 5, z0⟩ ⟨0, 0, -1⟩ = none := by
  have hbox : c9Mol.bounding_box = .box ⟨-1, -1, -1⟩ ⟨1, 1, 1⟩ :=
    of_decide_eq_true (by with_unfolding_all rfl)
  refine ⟨?_, ?_, ?_⟩
  · unfold Mol.Molecule.get_ray_hit
    rw [hbox, c9_ray_down z0]
    dsimp only
    rw [if_neg (by linarith : ¬ z0 + 1 ≤ 0)]
    rw [max_eq_right (by linarith : (0 : ℚ) ≤ z0 - 1)]
    have hpos : (⟨0, 0, z0⟩ : Vec3 ℚ) + (z0 - 1) • (⟨0, 0, -1⟩ : Vec3 ℚ)
        = ⟨0, 0, 1⟩ := by
      simp only [Vec3.smul_def, Vec3.add_def, Vec3.mk.injEq]
      refine ⟨by ring, by ring, by ring⟩
    rw [hpos]
    have hspan : z0 + 1 - (z0 - 1) = 2 := by ring
    rw [hspan]
    exact of_decide_eq_true (by with_unfolding_all rfl)
  · unfold Mol.Molecule.get_ray_hit
    rw [hbox, c9_ray_up z0]
    dsimp only
    rw [if_pos (by linarith : 1 - z0 ≤ 0)]
  · unfold Mol.Molecule.get_ray_hit
    rw [hbox]
    unfold BoundingBox.rayHitTimes
    dsimp only
    rw [c9_slab_x5]

/-- C9 witness: the ray query evaluated at start height 5. -/
theorem c9_ray_query_witness :
    (1 : ℚ) < 5 ∧
    (c9Mol.get_ray_hit ⟨0, 0, 5⟩ ⟨0, 0, -1⟩ = some ⟨0⟩ ∧
      c9Mol.get_ray_hit ⟨0, 0, 5⟩ ⟨0, 0, 1⟩ = none ∧
      c9Mol.get_ray_hit ⟨5, 5, 5⟩ ⟨0, 0, -1⟩ = none) :=
  ⟨of_decide_eq_true (by with_unfolding_all rfl),
    c9_ray_query 5 (of_decide_eq_true (by with_unfolding_all rfl))⟩

theorem relaxAux_char (g : MoleculeGraph) (t : ℝ) (p : Dynamics.RPositions) :
    ∀ (fuel n : Nat) (out : Dynamics.RPositions),
      Dynamics.relaxAux g t fuel (Dynamics.relaxIter g p n).1
          (Dynamics.relaxIter g p n).2 = some out →
      ∃ k, n ≤ k ∧ out = (Dynamics.relaxIter g p k).1 ∧
        Dynamics.largestAdjustment g out < t ∧
        ∀ j, n ≤ j → j < k →
          t ≤ Dynamics.largestAdjustment g (Dynamics.relaxIter g p j).1 := by
  intro fuel
  induction fuel with
  | zero =>
    intro n out h
    exact absurd h (by simp [Dynamics.relaxAux])
  | succ fuel ih =>
    intro n out h
    have hsucc : Dynamics.relaxAux g t (fuel + 1) (Dynamics.relaxIter g p n).1
        (Dynamics.relaxIter g p n).2
        = if Dynamics.largestAdjustment g (Dynamics.relaxIter g p n).1 < t
          then some (Dynamics.relaxIter g p n).1
          else Dynamics.relaxAux g t fuel
            (Dynamics.buildStep g (Dynamics.relaxIter g p n).1
              (Dynamics.relaxIter g p n).2)
            (Dynamics.relaxIter g p n).1 := rfl
    rw [hsucc] at h
    by_cases hlt : Dynamics.largestAdjustment g (Dynamics.relaxIter g p n).1 < t
    · rw [if_pos hlt] at h
      obtain rfl := (Option.some.inj h).symm
      refine ⟨n, le_refl n, rfl, hlt, ?_⟩
      intro j hj1 hj2
      exact absurd (lt_of_le_of_lt hj1 hj2) (lt_irrefl n)
    · rw [if_neg hlt] at h
      obtain ⟨k, hk, hout, hlt2, hall⟩ := ih (n + 1) out h
      refine ⟨k, le_trans (Nat.le_succ n) hk, hout, hlt2, ?_⟩
      intro j hj1 hj2
      rcases Nat.eq_or_lt_of_le hj1 with hj | hj
      · rw [← hj]
        exact not_lt.mp hlt
      · exact hall j hj hj2

theorem foldl_skip_sum (i : Nat) (f : Nat × AtomNode → Vec3 ℝ) :
    ∀ (l : List (Nat × AtomNode)) (init : Vec3 ℝ),
      l.foldl (fun acc q => if q.1 = i then acc else acc + f q) init
        = init + ((l.filter (fun q => q.1 ≠ i)).map f).foldr
            (fun v acc => v + acc) Vec3.zero := by
  intro l
  induction l with
  | nil =>
    intro init
    exact (vec3_add_zero init).symm
  | cons q tqs ih =>
    intro init
    by_cases hq : q.1 = i
    · simp only [List.foldl_cons]
      rw [if_pos hq]
      have hp : (decide (q.1 ≠ i)) = false := by simp [hq]
      rw [List.filter_cons, hp]
      simp only [Bool.false_eq_true, if_false]
      exact ih init
    · simp only [List.foldl_cons]
      rw [if_neg hq]
      have hp : (decide (q.1 ≠ i)) = true := by simp [hq]
      rw [List.filter_cons, hp]
      simp only [if_true, List.map_cons, List.foldr_cons]
      rw [ih (init + f q), vec3_add_assoc]

theorem pairForce_eq_spec_form (g : MoleculeGraph) (i j : Nat) (a b : Vec3 ℝ) :
    Dynamics.pairForce g i j a b
      = if g.containsEdge i j then (2 * ((b - a).mag - 4)) • (b - a).normalized
        else (-(1 / (b - a).magSq)) • (b - a).normalized := by
  unfold Dynamics.pairForce
  by_cases hE : g.containsEdge i j
  · simp only [hE, if_true]
  · simp only [hE, Bool.false_eq_true, if_false, vec3_smul_neg]

theorem atomForce_eq_specForceOn (g : MoleculeGraph) (p : Dynamics.RPositions)
    (i : Nat) (node : AtomNode) :
    Dynamics.atomForce g p i node = Dynamics.specForceOn g p i node := by
  unfold Dynamics.atomForce Dynamics.specForceOn
  rw [foldl_skip_sum i
    (fun q => Dynamics.pairForce g i q.1 ((p.get? node.spec).getD Vec3.zero)
      ((p.get? q.2.spec).getD Vec3.zero)) g.nodeReferences Vec3.zero]
  rw [vec3_zero_add]
  congr 1
  apply List.map_congr_left
  intro q _
  rw [pairForce_eq_spec_form]

theorem foldl_insert_get?_notmem [DecidableEq K] (key : β → K) (val : β → V) (k : K) :
    ∀ (l : List β) (m0 : AMap K V), k ∉ l.map key →
      (l.foldl (fun m1 b => m1.insert (key b) (val b)) m0).get? k = m0.get? k := by
  intro l
  induction l with
  | nil =>
    intro m0 _
    rfl
  | cons b tl ih =>
    intro m0 hk
    simp only [List.map_cons, List.mem_cons, not_or] at hk
    simp only [List.foldl_cons]
    rw [ih (m0.insert (key b) (val b)) hk.2]
    exact AMap.get?_insert_ne m0 (key b) k (val b) (fun hkb => hk.1 hkb.symm)

theorem foldl_insert_get?_mem [DecidableEq K] (key : β → K) (val : β → V) :
    ∀ (l : List β) (m0 : AMap K V) (q : β), q ∈ l → (l.map key).Nodup →
      (l.foldl (fun m1 b => m1.insert (key b) (val b)) m0).get? (key q)
        = some (val q) := by
  intro l
  induction l with
  | nil =>
    intro m0 q hq _
    simp at hq
  | cons b tl ih =>
    intro m0 q hq hnd
    simp only [List.map_cons, List.nodup_cons] at hnd
    simp only [List.foldl_cons]
    rcases List.mem_cons.mp hq with hq | hq
    · subst hq
      rw [foldl_insert_get?_notmem key val (key q) tl _ hnd.1]
      exact AMap.get?_insert_self m0 (key q) (val q)
    · exact ih (m0.insert (key b) (val b)) q hq hnd.2

/-- C6 amended (corrected claim, proved): whenever the embedded `relax` loop
terminates, the returned assignment is the *input* of the first pass whose
largest per-atom delta falls below the threshold — the terminating pass's
sub-threshold deltas are computed but discarded, not applied; every earlier
pass had largest delta ≥ threshold.  Moreover each pass is the specified
Jacobi iteration: on a graph whose live atoms carry distinct specifiers,
the new position of every atom is its previous position plus 0.1 times the
spec's force sum (bonded spring `2·(‖d‖ − 4)`, non-bonded repulsion
`−1/‖d‖²`, along the normalized displacement), all forces being computed
from the previous pass's positions. -/
theorem c6_relax_characterization (g : MoleculeGraph) (p : Dynamics.RPositions)
    (t : ℝ) (fuel : Nat) (out : Dynamics.RPositions)
    (h : Dynamics.relax g p t fuel = some out) :
    (∃ k, out = (Dynamics.relaxIter g p k).1 ∧
      Dynamics.largestAdjustment g out < t ∧
      ∀ j, j < k → t ≤ Dynamics.largestAdjustment g (Dynamics.relaxIter g p j).1) ∧
    (∀ (old scratch : Dynamics.RPositions) (q : Nat × AtomNode),
      q ∈ g.nodeReferences → (g.nodeReferences.map (fun w => w.2.spec)).Nodup →
      (Dynamics.buildStep g old scratch).get? q.2.spec
        = some (((old.get? q.2.spec).getD Vec3.zero)
            + (1 / 10 : ℝ) • Dynamics.specForceOn g old q.1 q.2)) := by
  constructor
  · obtain ⟨k, _, hout, hlt, hall⟩ := relaxAux_char g t p fuel 0 out h
    exact ⟨k, hout, hlt, fun j hj => hall j (Nat.zero_le j) hj⟩
  · intro old scratch q hq hnd
    have hfold := foldl_insert_get?_mem (fun w => w.2.spec)
      (fun w => ((old.get? w.2.spec).getD Vec3.zero)
        + Dynamics.adjustment g old w.1 w.2)
      g.nodeReferences scratch q hq hnd
    unfold Dynamics.buildStep
    rw [hfold]
    dsimp only
    unfold Dynamics.adjustment
    rw [atomForce_eq_specForceOn]

theorem sqrt_twentyfive : Real.sqrt 25 = 5 := by
  rw [show (25 : ℝ) = 5 ^ 2 by norm_num]
  exact Real.sqrt_sq (by norm_num)

theorem c6_refs : g6.nodeReferences
    = [(0, ⟨.Hydrogen, ⟨0⟩, none⟩), (1, ⟨.Hydrogen, ⟨1⟩, some ⟨0⟩⟩)] := rfl

theorem c6_get0 : (p6.get? ⟨0⟩).getD Vec3.zero = ⟨0, 0, 0⟩ := by
  with_unfolding_all rfl

theorem c6_get1 : (p6.get? ⟨1⟩).getD Vec3.zero = ⟨0, 0, 5⟩ := by
  with_unfolding_all rfl

theorem c6_pf01 : Dynamics.pairForce g6 0 1 ⟨0, 0, 0⟩ ⟨0, 0, 5⟩ = ⟨0, 0, 2⟩ := by
  unfold Dynamics.pairForce
  have hedge : g6.containsEdge 0 1 = true := rfl
  rw [hedge]
  dsimp only
  have hd : ((⟨0, 0, 5⟩ : Vec3 ℝ) - ⟨0, 0, 0⟩) = ⟨0, 0, 5⟩ := by
    simp only [Vec3.sub_def, Vec3.mk.injEq]
    norm_num
  rw [if_pos rfl, hd]
  have hmag : (Vec3.mk (0 : ℝ) 0 5).mag = 5 := by
    unfold Vec3.mag Vec3.magSq
    rw [show (0 : ℝ) * 0 + 0 * 0 + 5 * 5 = 25 by norm_num, sqrt_twentyfive]
  have hnorm : (Vec3.mk (0 : ℝ) 0 5).normalized = ⟨0, 0, 1⟩ := by
    unfold Vec3.normalized
    rw [hmag]
    simp only [Vec3.smul_def, Vec3.mk.injEq]
    norm_num
  rw [hmag, hnorm]
  simp only [Vec3.smul_def, Vec3.mk.injEq]
  norm_num

theorem c6_pf10 : Dynamics.pairForce g6 1 0 ⟨0, 0, 5⟩ ⟨0, 0, 0⟩ = ⟨0, 0, -2⟩ := by
  unfold Dynamics.pairForce
  have hedge : g6.containsEdge 1 0 = true := rfl
  rw [hedge]
  dsimp only
  have hd : ((⟨0, 0, 0⟩ : Vec3 ℝ) - ⟨0, 0, 5⟩) = ⟨0, 0, -5⟩ := by
    simp only [Vec3.sub_def, Vec3.mk.injEq]
    norm_num
  rw [if_pos rfl, hd]
  have hmag : (Vec3.mk (0 : ℝ) 0 (-5)).mag = 5 := by
    unfold Vec3.mag Vec3.magSq
    rw [show (0 : ℝ) * 0 + 0 * 0 + -5 * -5 = 25 by norm_num, sqrt_twentyfive]
  have hnorm : (Vec3.mk (0 : ℝ) 0 (-5)).normalized = ⟨0, 0, -1⟩ := by
    unfold Vec3.normalized
    rw [hmag]
    simp only [Vec3.smul_def, Vec3.mk.injEq]
    norm_num
  rw [hmag, hnorm]
  simp only [Vec3.smul_def, Vec3.mk.injEq]
  norm_num

theorem c6_adjA :
    Dynamics.adjustment g6 p6 0 ⟨.Hydrogen, ⟨0⟩, none⟩ = ⟨0, 0, 1 / 5⟩ := by
  unfold Dynamics.adjustment Dynamics.atomForce
  rw [c6_refs]
  simp only [List.foldl_cons, List.foldl_nil, if_true, if_false,
    Nat.one_ne_zero, reduceIte]
  rw [c6_get0, c6_get1, c6_pf01, vec3_zero_add]
  simp only [Vec3.smul_def, Vec3.mk.injEq]
  norm_num

theorem c6_adjB :
    Dynamics.adjustment g6 p6 1 ⟨.Hydrogen, ⟨1⟩, some ⟨0⟩⟩ = ⟨0, 0, -(1 / 5)⟩ := by
  unfold Dynamics.adjustment Dynamics.atomForce
  rw [c6_refs]
  simp only [List.foldl_cons, List.foldl_nil, if_true, if_false,
    Nat.zero_ne_one, reduceIte]
  rw [c6_get0, c6_get1, c6_pf10, vec3_zero_add]
  simp only [Vec3.smul_def, Vec3.mk.injEq]
  norm_num

theorem c6_magA : (Vec3.mk (0 : ℝ) 0 (1 / 5)).mag = 1 / 5 := by
  unfold Vec3.mag Vec3.magSq
  rw [show (0 : ℝ) * 0 + 0 * 0 + 1 / 5 * (1 / 5) = (1 / 5) ^ 2 by norm_num]
  exact Real.sqrt_sq (by norm_num)

theorem c6_magB : (Vec3.mk (0 : ℝ) 0 (-(1 / 5))).mag = 1 / 5 := by
  unfold Vec3.mag Vec3.magSq
  rw [show (0 : ℝ) * 0 + 0 * 0 + -(1 / 5) * -(1 / 5) = (1 / 5) ^ 2 by norm_num]
  exact Real.sqrt_sq (by norm_num)

theorem c6_largest : Dynamics.largestAdjustment g6 p6 = 1 / 5 := by
  unfold Dynamics.largestAdjustment
  rw [c6_refs]
  simp only [List.foldl_cons, List.foldl_nil]
  rw [c6_adjA, c6_adjB, c6_magA, c6_magB]
  rw [if_pos (by norm_num : (1 / 5 : ℝ) > 0)]
  rw [if_neg (by norm_num : ¬ (1 / 5 : ℝ) > 1 / 5)]

theorem c6_relax_value : Dynamics.relax g6 p6 1 1 = some p6 := by
  unfold Dynamics.relax
  rw [show Dynamics.relaxAux g6 1 1 p6 []
      = if Dynamics.largestAdjustment g6 p6 < 1 then some p6
        else Dynamics.relaxAux g6 1 0 (Dynamics.buildStep g6 p6 []) p6 from rfl]
  rw [c6_largest, if_pos (by norm_num : (1 / 5 : ℝ) < 1)]

theorem c6_claim_value :
    Dynamics.relaxClaim g6 p6 1 1 = some (Dynamics.buildStep g6 p6 []) := by
  unfold Dynamics.relaxClaim
  rw [show Dynamics.relaxClaimAux g6 1 1 p6 []
      = if Dynamics.largestAdjustment g6 p6 < 1 then some (Dynamics.buildStep g6 p6 [])
        else Dynamics.relaxClaimAux g6 1 0 (Dynamics.buildStep g6 p6 []) p6 from rfl]
  rw [c6_largest, if_pos (by norm_num : (1 / 5 : ℝ) < 1)]

theorem c6_buildStep_value :
    Dynamics.buildStep g6 p6 []
      = [(⟨0⟩, ⟨0, 0, 1 / 5⟩), (⟨1⟩, ⟨0, 0, 24 / 5⟩)] := by
  unfold Dynamics.buildStep
  rw [c6_refs]
  simp only [List.foldl_cons, List.foldl_nil]
  rw [c6_get0, c6_get1, c6_adjA, c6_adjB]
  have e0 : (⟨0, 0, 0⟩ : Vec3 ℝ) + ⟨0, 0, 1 / 5⟩ = ⟨0, 0, 1 / 5⟩ := by
    simp only [Vec3.add_def, Vec3.mk.injEq]
    norm_num
  have e1 : (⟨0, 0, 5⟩ : Vec3 ℝ) + ⟨0, 0, -(1 / 5)⟩ = ⟨0, 0, 24 / 5⟩ := by
    simp only [Vec3.add_def, Vec3.mk.injEq]
    norm_num
  rw [e0, e1]
  with_unfolding_all rfl

theorem c6_p6_get1 : AMap.get? p6 ⟨1⟩ = some ⟨0, 0, 5⟩ := by
  with_unfolding_all rfl

/-- C6 counterexample: two bonded hydrogens on the z axis at separation 5,
threshold 1.  The very first pass has largest delta 1/5 < 1, so the loop
terminates immediately: the source `relax` returns the *input* positions
(the separation-5 pair), whereas the claim's process (`relaxClaim`, which
applies the terminating pass's deltas before returning) yields the stepped
positions (z = 1/5 and z = 24/5).  The two results differ, refuting the
claim's "returning the resulting position assignment" as stated. -/
theorem c6_counterexample :
    Dynamics.relax g6 p6 1 1 = some p6 ∧
    Dynamics.relaxClaim g6 p6 1 1 = some (Dynamics.buildStep g6 p6 []) ∧
    (Dynamics.buildStep g6 p6 []).get? ⟨1⟩ = some ⟨0, 0, 24 / 5⟩ ∧
    p6.get? ⟨1⟩ = some ⟨0, 0, 5⟩ ∧
    Dynamics.relaxClaim g6 p6 1 1 ≠ Dynamics.relax g6 p6 1 1 := by
  refine ⟨c6_relax_value, c6_claim_value, ?_, c6_p6_get1, ?_⟩
  · rw [c6_buildStep_value]
    with_unfolding_all rfl
  · rw [c6_relax_value, c6_claim_value]
    intro hcontra
    have h2 := Option.some.inj hcontra
    have h3 := congrArg (fun m => AMap.get? m ⟨1⟩) h2
    rw [c6_buildStep_value] at h3
    have h4 : (some (⟨0, 0, 24 / 5⟩ : Vec3 ℝ)) = some ⟨0, 0, 5⟩ := by
      rw [← c6_p6_get1]
      convert h3 using 1
    have h6 : (24 / 5 : ℝ) = 5 := congrArg Vec3.z (Option.some.inj h4)
    norm_num at h6

/-- C6 witness: the amended characterization applied to the bonded pair at
separation 5 with threshold 1 and fuel 1, where the loop terminates at once
and returns the input assignment. -/
theorem c6_relax_characterization_witness :
    Dynamics.relax g6 p6 1 1 = some p6 ∧
    ((∃ k, p6 = (Dynamics.relaxIter g6 p6 k).1 ∧
        Dynamics.largestAdjustment g6 p6 < 1 ∧
        ∀ j, j < k → 1 ≤ Dynamics.largestAdjustment g6 (Dynamics.relaxIter g6 p6 j).1) ∧
      (∀ (old scratch : Dynamics.RPositions) (q : Nat × AtomNode),
        q ∈ g6.nodeReferences →
        (g6.nodeReferences.map (fun w => w.2.spec)).Nodup →
        (Dynamics.buildStep g6 old scratch).get? q.2.spec
          = some (((old.get? q.2.spec).getD Vec3.zero)
              + (1 / 10 : ℝ) • Dynamics.specForceOn g6 old q.1 q.2))) :=
  ⟨c6_relax_value, c6_relax_characterization g6 p6 1 1 p6 c6_relax_value⟩

theorem c7_get0 : (p7.get? ⟨0⟩).getD Vec3.zero = ⟨0, 0, 0⟩ := by
  with_unfolding_all rfl

theorem c7_get1 : (p7.get? ⟨1⟩).getD Vec3.zero = ⟨0, 0, 0⟩ := by
  with_unfolding_all rfl

/-- C7 (code bug): on two coincident, non-bonded atoms the relaxation loop has
no degenerate-case guard.  The atoms are not bonded (so the repulsion branch
with its unconditional `1 / ‖d‖²` and `d.normalized()` is taken) and the
displacement between them is the zero vector, whose squared magnitude — the
repulsion's divisor — and magnitude — the normalization's divisor — are both
zero.  (In the f32 source this produces an infinite force strength and a NaN
direction; no skip or jitter exists anywhere in `relax`.) -/
theorem c7_coincident_atoms_unguarded :
    g7.containsEdge 0 1 = false ∧
    (((p7.get? ⟨1⟩).getD Vec3.zero) - ((p7.get? ⟨0⟩).getD Vec3.zero)) = Vec3.zero ∧
    (Vec3.zero : Vec3 ℝ).magSq = 0 ∧
    (Vec3.zero : Vec3 ℝ).mag = 0 := by
  have hmagsq : (Vec3.zero : Vec3 ℝ).magSq = 0 := by
    unfold Vec3.magSq Vec3.zero
    norm_num
  refine ⟨rfl, ?_, hmagsq, ?_⟩
  · rw [c7_get1, c7_get0]
    simp only [Vec3.sub_def, Vec3.zero, Vec3.mk.injEq]
    norm_num
  · unfold Vec3.mag
    rw [hmagsq]
    exact Real.sqrt_zero
